import Mathlib

/-!
Verification of the scribe activity-timer extension core.

Shallow embedding of `src/extension.ts`: per-workspace countdown timers,
log-file writes on timer fire, git commit orchestration, and the
activate / restart / disable lifecycle commands.

Modelling conventions:
* Workspace paths are `String`s; the per-path JS objects
  (`activityTimers`, `remainingTimes`, `lastActivityTimestamps`) become
  total functions out of `String` (with `Option` for keys that may be unset).
* Milliseconds and wall-clock instants are `Int` (JS numbers used only at
  integral values in this code; `Math.max(x, 0)` becomes `max x 0` on `Int`).
* A scheduled `setTimeout` is a `TimerHandle` carrying a fresh id, the delay
  it was scheduled with, and the instant it was scheduled at; the map slot
  holds at most one handle per workspace, so overwriting a slot models
  `clearTimeout` followed by a fresh `setTimeout`.
* The file system is a map from workspace path to the (optional) list of log
  lines of that workspace's log file; `none` means the file does not exist.
* `vscode.window.show*Message` calls append to a notification list;
  `console.error` calls append to a console list; executed git commands are
  recorded in a list, with failure injected through a `CommitResult` oracle.
* `handleActivityTracking` subscribes its `handleActivity` closure to
  `onDidChangeTextEditorSelection` and `onDidChangeTextDocument` with no
  filtering by the event's workspace, so one editor event anywhere in the
  window runs every folder's closure: `broadcastPulse` is that wiring,
  `handleActivity` the body of a single closure.
* `vscode.commands.registerCommand` throws when the command id is already
  registered; a call that can throw returns a `CallResult` carrying the
  state as mutated so far plus the uncaught error, mirroring a JS throw
  that aborts the rest of the caller.
-/

namespace Scribe

/-- Severity of a user-visible notification (`showInformationMessage`,
`showWarningMessage`, `showErrorMessage`). -/
inductive Severity where
  | info
  | warn
  | err
  deriving DecidableEq

/-- A user-visible notification. -/
structure Notification where
  sev : Severity
  text : String
  deriving DecidableEq

/-- One line of the log file, as written by the timer-fire callback:
`You spent ${timerDuration} minutes coding as of ${new Date().toISOString()}`.
The numeric duration value and the timestamp rendered in ISO-8601 are the
two data the line carries. -/
structure LogEntry where
  durationMs : Int
  isoTimestamp : Int
  deriving DecidableEq

/-- A pending `setTimeout` wake-up: its identity, the delay it was scheduled
with, and the instant `setTimeout` was called. It fires at `setAt + delay`. -/
structure TimerHandle where
  id : Nat
  delay : Int
  setAt : Int
  deriving DecidableEq

/-- The mutable module-level state of the extension plus the observable
external effects (log files, notifications, console, git invocations). -/
structure ExtState where
  activityTimers : String → Option TimerHandle
  remainingTimes : String → Int
  lastActivityTimestamps : String → Option Int
  logFiles : String → Option (List LogEntry)
  notifications : List Notification
  consoleErrors : List String
  gitCommands : List (String × String)
  nextHandle : Nat
  registeredCommands : List String

/-- The state at process start: no timers, no timestamps, no log files, no
registered commands. -/
def ExtState.empty : ExtState where
  activityTimers := fun _ => none
  remainingTimes := fun _ => 0
  lastActivityTimestamps := fun _ => none
  logFiles := fun _ => none
  notifications := []
  consoleErrors := []
  gitCommands := []
  nextHandle := 0
  registeredCommands := []

/-- The fixed external circumstances a run happens under: the open workspace
folders, which of them have a `.git` directory (the Version-Control Probe),
which log-file deletions would fail, and the configured
`scribe.timerDurationMinutes` setting. -/
structure Env where
  folders : List String
  gitInitialized : String → Bool
  unlinkFails : String → Bool
  timerDurationMinutes : Int

/-- Outcome oracle for the two git commands of one commit attempt. -/
inductive CommitResult where
  | success
  | stageFails
  | commitFails
  deriving DecidableEq

/-- Pointwise update of a map, modelling `obj[key] = v`. -/
def upd {α : Type} (f : String → α) (k : String) (v : α) : String → α :=
  fun q => if q = k then v else f q

/-- `path.join(workspacePath, extensionName + "-log.txt")`. -/
def logFilePathOf (wp : String) : String :=
  wp ++ "/scribe-log.txt"

/-- The staging command `git add ${logFilePath}` of `commitLogFile`. -/
def gitAddCmd (wp : String) : String :=
  "git add " ++ logFilePathOf wp

/-- The commit command of `commitLogFile` (fixed message template). -/
def gitCommitCmd : String :=
  "git commit -m Log coding activity"

/-- `clearTimeout(activityTimers[wp]); activityTimers[wp] = undefined` guarded
by the truthiness check on the stored handle. -/
def clearTimer (wp : String) (s : ExtState) : ExtState :=
  match s.activityTimers wp with
  | some _ => { s with activityTimers := upd s.activityTimers wp none }
  | none => s

/-- `pauseTimer` of `handleActivityTracking`, executed at instant `now`:
clear the pending wake-up, then, when `lastActivityTimestamps[wp]` is truthy,
subtract the elapsed time from `remainingTimes[wp]`, clamped at 0 by
`Math.max`. -/
def pauseTimer (wp : String) (now : Int) (s : ExtState) : ExtState :=
  let s1 := clearTimer wp s
  match s1.lastActivityTimestamps wp with
  | some t =>
      if t = 0 then s1
      else
        { s1 with remainingTimes := upd s1.remainingTimes wp (max (s1.remainingTimes wp - (now - t)) 0) }
  | none => s1

/-- `startOrResumeTimer` of `handleActivityTracking`, executed at instant
`now`: cancel any pending wake-up, schedule a fresh one with delay
`remainingTimes[wp]`, and record `lastActivityTimestamps[wp] = Date.now()`. -/
def startOrResumeTimer (wp : String) (now : Int) (s : ExtState) : ExtState :=
  let s1 := clearTimer wp s
  { s1 with
    activityTimers := upd s1.activityTimers wp (some ⟨s1.nextHandle, s1.remainingTimes wp, now⟩),
    nextHandle := s1.nextHandle + 1,
    lastActivityTimestamps := upd s1.lastActivityTimestamps wp (some now) }

/-- `handleActivity`: the body of one registered listener closure —
`pauseTimer()` then `startOrResumeTimer()` for the workspace `wp` the
closure was created for. The source registers this closure on
`onDidChangeTextEditorSelection` and `onDidChangeTextDocument` as GLOBAL
listeners, once per folder, with no filtering by the event's workspace;
the event payload is ignored. `broadcastPulse` below is that wiring. -/
def handleActivity (wp : String) (now : Int) (s : ExtState) : ExtState :=
  startOrResumeTimer wp now (pauseTimer wp now s)

/-- A sequence of invocations of workspace `wp`'s listener closure at the
listed instants. -/
def runPulses (wp : String) (ts : List Int) (s : ExtState) : ExtState :=
  ts.foldl (fun st t => handleActivity wp t st) s

/-- One editor activity event (an edit or selection change anywhere in the
window) at instant `now`, as the source actually wires it: since the
listeners are global and unfiltered, the `handleActivity` closure of every
registered folder runs, in registration order. -/
def broadcastPulse (folders : List String) (now : Int) (s : ExtState) : ExtState :=
  folders.foldl (fun st wp => handleActivity wp now st) s

/-- `executeGitCommand`: record the attempted command; on failure report an
error notification and a console error and signal failure. -/
def executeGitCommand (cmd : String) (wp : String) (fails : Bool)
    (s : ExtState) : ExtState × Bool :=
  let s0 := { s with gitCommands := s.gitCommands ++ [(wp, cmd)] }
  if fails then
    ({ s0 with
        consoleErrors := s0.consoleErrors ++ ["Error executing command: " ++ cmd],
        notifications := s0.notifications ++ [⟨Severity.err, "Error executing command: " ++ cmd⟩] },
      false)
  else (s0, true)

/-- `commitLogFile`: when git is initialized, stage then commit the log file,
reporting success or catching the first failure with an error notification;
otherwise only warn that the log file was not committed. -/
def commitLogFile (wp : String) (gitInit : Bool) (res : CommitResult)
    (s : ExtState) : ExtState :=
  if gitInit then
    match res with
    | CommitResult.success =>
        let s1 := (executeGitCommand (gitAddCmd wp) wp false s).1
        let s2 := (executeGitCommand gitCommitCmd wp false s1).1
        { s2 with notifications := s2.notifications ++ [⟨Severity.info, "Log file committed to Git successfully."⟩] }
    | CommitResult.stageFails =>
        let s1 := (executeGitCommand (gitAddCmd wp) wp true s).1
        { s1 with notifications := s1.notifications ++ [⟨Severity.err, "Failed to commit log file to Git."⟩] }
    | CommitResult.commitFails =>
        let s1 := (executeGitCommand (gitAddCmd wp) wp false s).1
        let s2 := (executeGitCommand gitCommitCmd wp true s1).1
        { s2 with notifications := s2.notifications ++ [⟨Severity.err, "Failed to commit log file to Git."⟩] }
  else
    { s with notifications := s.notifications ++ [⟨Severity.warn, "Git is not initialized. Log file was not committed."⟩] }

/-- The log write of the timer-fire callback: `writeFileSync` with the
message when the file does not exist (plus the creation notification),
`appendFileSync` otherwise. -/
def writeLogEntry (wp : String) (e : LogEntry) (s : ExtState) : ExtState :=
  match s.logFiles wp with
  | none =>
      { s with
        logFiles := upd s.logFiles wp (some [e]),
        notifications := s.notifications ++ [⟨Severity.info, "Your log file has been created"⟩] }
  | some es => { s with logFiles := upd s.logFiles wp (some (es ++ [e])) }

/-- The `setTimeout` callback of `startOrResumeTimer`, executed at instant
`now` with the closure-captured `timerDuration`: format and write the log
line, await `commitLogFile`, reset `remainingTimes[wp] = timerDuration`, and
call `startOrResumeTimer()` again. -/
def fireTimer (wp : String) (timerDuration : Int) (now : Int) (gitInit : Bool)
    (res : CommitResult) (s : ExtState) : ExtState :=
  let s1 := writeLogEntry wp ⟨timerDuration, now⟩ s
  let s2 := commitLogFile wp gitInit res s1
  let s3 := { s2 with remainingTimes := upd s2.remainingTimes wp timerDuration }
  startOrResumeTimer wp now s3

/-- The tail of `handleActivityTracking`: initialize
`remainingTimes[wp] = timerDuration` and start the timer. -/
def initSession (wp : String) (timerDuration : Int) (now : Int)
    (s : ExtState) : ExtState :=
  startOrResumeTimer wp now
    { s with remainingTimes := upd s.remainingTimes wp timerDuration }

/-- `handleActivityTracking`: read the configured minutes, convert to
milliseconds with no validation, and initialize the session. -/
def handleActivityTracking (cfgMinutes : Int) (wp : String) (now : Int)
    (s : ExtState) : ExtState :=
  initSession wp (cfgMinutes * 60 * 1000) now s

/-- The command id `scribe.activate` registered by `activate`. -/
def activateCmdId : String := "scribe.activate"

/-- The command id `scribe.restart` registered by `activate`. -/
def restartCmdId : String := "scribe.restart"

/-- The command id `scribe.disable` registered by `activate`. -/
def disableCmdId : String := "scribe.disable"

/-- The outcome of a call that may throw: the state as mutated so far, and
the uncaught error when one was thrown. A throw aborts the rest of the
caller but does not roll back earlier mutations. -/
structure CallResult where
  state : ExtState
  thrown : Option String

/-- `vscode.commands.registerCommand`: registering a command id that is
already registered throws; otherwise the id is recorded. -/
def registerCommand (cid : String) (s : ExtState) : CallResult :=
  if cid ∈ s.registeredCommands then
    ⟨s, some ("command already exists: " ++ cid)⟩
  else
    ⟨{ s with registeredCommands := s.registeredCommands ++ [cid] }, none⟩

/-- Sequencing in the presence of a throw: a thrown error propagates and
the continuation is skipped. -/
def andThen (r : CallResult) (f : ExtState → CallResult) : CallResult :=
  match r.thrown with
  | some e => ⟨r.state, some e⟩
  | none => f r.state

/-- `activate`: warn and stop when no workspace folder is open; otherwise
register the three commands — each registration throwing when its id is
already registered, which aborts `activate` before the session loop — and
then run `handleActivityTracking` for every open workspace folder. -/
def activate (env : Env) (now : Int) (s : ExtState) : CallResult :=
  if env.folders.isEmpty then
    ⟨{ s with notifications := s.notifications ++ [⟨Severity.warn, "No workspace folder is open. scribe will not run."⟩] },
      none⟩
  else
    andThen (registerCommand activateCmdId s) (fun s1 =>
      andThen (registerCommand restartCmdId s1) (fun s2 =>
        andThen (registerCommand disableCmdId s2) (fun s3 =>
          ⟨env.folders.foldl
              (fun st wp => handleActivityTracking env.timerDurationMinutes wp now st) s3,
            none⟩)))

/-- The body of `deactivate` for one workspace folder: when the log file
exists, either warn (repository present) or best-effort delete it
(repository absent), catching deletion failures on the console. -/
def deactivateFolder (env : Env) (s : ExtState) (wp : String) : ExtState :=
  if (s.logFiles wp).isSome then
    if env.gitInitialized wp then
      { s with notifications := s.notifications ++ [⟨Severity.warn, "Log file not deleted because it has not been committed."⟩] }
    else
      if env.unlinkFails wp then
        { s with consoleErrors := s.consoleErrors ++ ["Error deleting log file"] }
      else
        { s with
          logFiles := upd s.logFiles wp none,
          consoleErrors := s.consoleErrors ++ ["Log file deleted successfully."] }
  else s

/-- `deactivate`: apply the log-file deletion policy to every open workspace
folder. Note that it touches only log files: `activityTimers` is left
completely alone. -/
def deactivate (env : Env) (s : ExtState) : ExtState :=
  env.folders.foldl (deactivateFolder env) s

/-- The `scribe.disable` command handler: `deactivate()` then the
informational message. -/
def disableCommand (env : Env) (s : ExtState) : ExtState :=
  let s1 := deactivate env s
  { s1 with notifications := s1.notifications ++ [⟨Severity.info, "scribe is now disabled."⟩] }

/-- The `scribe.restart` command handler: `deactivate()`, the informational
message, then `activate(context)` again — whose `registerCommand` calls
throw when the command ids are still registered, aborting the handler. -/
def restartCommand (env : Env) (now : Int) (s : ExtState) : CallResult :=
  let s1 := deactivate env s
  let s2 := { s1 with notifications := s1.notifications ++ [⟨Severity.info, "scribe is restarting..."⟩] }
  activate env now s2

/-- The instant a pending wake-up of `wp` will fire, when one is pending. -/
def fireInstant (s : ExtState) (wp : String) : Option Int :=
  (s.activityTimers wp).map (fun h => h.setAt + h.delay)

/-- Concrete workspace path used by witnesses and scenarios. -/
def wsA : String := "w"

/-- A second concrete workspace path, distinct from `wsA`. -/
def wsB : String := "x"

/-- A session for `wsA` started at instant 5 with 10 ms budget. -/
def c1Base : ExtState := initSession wsA 10 5 ExtState.empty

/-- The notifications one `commitLogFile` call appends, per probe answer and
command outcome (read off the branches of `commitLogFile` and
`executeGitCommand`). -/
def commitNotes (wp : String) (g : Bool) (res : CommitResult) : List Notification :=
  if g then
    match res with
    | CommitResult.success => [⟨Severity.info, "Log file committed to Git successfully."⟩]
    | CommitResult.stageFails =>
        [⟨Severity.err, "Error executing command: " ++ gitAddCmd wp⟩,
         ⟨Severity.err, "Failed to commit log file to Git."⟩]
    | CommitResult.commitFails =>
        [⟨Severity.err, "Error executing command: " ++ gitCommitCmd⟩,
         ⟨Severity.err, "Failed to commit log file to Git."⟩]
  else [⟨Severity.warn, "Git is not initialized. Log file was not committed."⟩]

/-- The git commands one `commitLogFile` call issues, per probe answer and
command outcome: staging first, then the commit unless staging failed, and
nothing at all without a repository. -/
def commitAttemptCmds (wp : String) (g : Bool) (res : CommitResult) : List (String × String) :=
  if g then
    match res with
    | CommitResult.success => [(wp, gitAddCmd wp), (wp, gitCommitCmd)]
    | CommitResult.stageFails => [(wp, gitAddCmd wp)]
    | CommitResult.commitFails => [(wp, gitAddCmd wp), (wp, gitCommitCmd)]
  else []

/-- C3 scenario: one open workspace, no repository, nothing fails. -/
def c3Env : Env := ⟨[wsA], fun _ => false, fun _ => false, 30⟩

/-- C3 scenario: a session for `wsA` started at instant 100 with 10 ms
budget, so a wake-up is pending when the disable command runs. -/
def c3State : ExtState := initSession wsA 10 100 ExtState.empty

/-- C5 scenario: two open workspaces; `wsA` has a repository, `wsB` does
not; no deletion fails. -/
def c5Env : Env := ⟨[wsA, wsB], fun q => q == wsA, fun _ => false, 30⟩

/-- C5 scenario: both workspaces already have a log file. -/
def c5State : ExtState :=
  { ExtState.empty with
    logFiles := upd (upd ExtState.empty.logFiles wsA (some [⟨1, 1⟩])) wsB (some [⟨2, 2⟩]) }

/-- C4 scenario: sessions for both `wsA` and `wsB`, each started at instant
100 with a 10 ms budget. -/
def c4State : ExtState := initSession wsB 10 100 (initSession wsA 10 100 ExtState.empty)

/-- C8 scenario: one open workspace, configured duration 1 minute. -/
def c8Env : Env := ⟨[wsA], fun _ => false, fun _ => false, 1⟩

/-- C8 scenario: the initial, successful activation at instant 100 — it
registers the three commands and creates the `wsA` session at the full
60000 ms. -/
def c8Start : CallResult := activate c8Env 100 ExtState.empty

/-- C8 scenario: an activity pulse at instant 150 leaves the `wsA` session
mid-countdown — 59950 ms left, wake-up pending — when the restart command
runs at instant 200. -/
def c8Mid : ExtState := handleActivity wsA 150 c8Start.state

/-- C9 scenario: a session for `wsA` with a 10-tick budget started at
instant 1000 (a nonzero wall-clock origin, as `Date.now()` always is). -/
def c9Init : ExtState := initSession wsA 10 1000 ExtState.empty

/-- C9 scenario: one activity pulse per tick, at instants 1001, 1002, … ,
`1000 + k`. -/
def c9Pulses (k : Nat) : List Int :=
  (List.range k).map (fun i => 1001 + (i : Int))

@[simp] theorem upd_same {α : Type} (f : String → α) (k : String) (v : α) :
    upd f k v k = v := by
  simp [upd]

@[simp] theorem upd_ne {α : Type} (f : String → α) (k q : String) (v : α) (h : q ≠ k) :
    upd f k v q = f q := by
  simp [upd, h]

@[simp] theorem clearTimer_remainingTimes (wp : String) (s : ExtState) :
    (clearTimer wp s).remainingTimes = s.remainingTimes := by
  unfold clearTimer; split <;> rfl

@[simp] theorem clearTimer_lastActivityTimestamps (wp : String) (s : ExtState) :
    (clearTimer wp s).lastActivityTimestamps = s.lastActivityTimestamps := by
  unfold clearTimer; split <;> rfl

@[simp] theorem clearTimer_logFiles (wp : String) (s : ExtState) :
    (clearTimer wp s).logFiles = s.logFiles := by
  unfold clearTimer; split <;> rfl

@[simp] theorem clearTimer_notifications (wp : String) (s : ExtState) :
    (clearTimer wp s).notifications = s.notifications := by
  unfold clearTimer; split <;> rfl

@[simp] theorem clearTimer_consoleErrors (wp : String) (s : ExtState) :
    (clearTimer wp s).consoleErrors = s.consoleErrors := by
  unfold clearTimer; split <;> rfl

@[simp] theorem clearTimer_gitCommands (wp : String) (s : ExtState) :
    (clearTimer wp s).gitCommands = s.gitCommands := by
  unfold clearTimer; split <;> rfl

@[simp] theorem clearTimer_nextHandle (wp : String) (s : ExtState) :
    (clearTimer wp s).nextHandle = s.nextHandle := by
  unfold clearTimer; split <;> rfl

theorem clearTimer_activityTimers_ne (wp q : String) (s : ExtState) (h : q ≠ wp) :
    (clearTimer wp s).activityTimers q = s.activityTimers q := by
  unfold clearTimer; split <;> simp [upd, h]

theorem pauseTimer_lastActivityTimestamps (wp : String) (now : Int) (s : ExtState) :
    (pauseTimer wp now s).lastActivityTimestamps = s.lastActivityTimestamps := by
  simp only [pauseTimer]
  split
  · split <;> simp
  · simp

theorem pauseTimer_nextHandle (wp : String) (now : Int) (s : ExtState) :
    (pauseTimer wp now s).nextHandle = s.nextHandle := by
  simp only [pauseTimer]
  split
  · split <;> simp
  · simp

theorem pauseTimer_remaining_of_last (wp : String) (now t : Int) (s : ExtState)
    (hlast : s.lastActivityTimestamps wp = some t) (ht : t ≠ 0) :
    (pauseTimer wp now s).remainingTimes wp
      = max (s.remainingTimes wp - (now - t)) 0 := by
  simp only [pauseTimer, clearTimer_lastActivityTimestamps, hlast]
  simp [ht]

theorem pauseTimer_remaining_le (wp : String) (now : Int) (s : ExtState)
    (h : ∀ t, s.lastActivityTimestamps wp = some t → t ≤ now)
    (hr : 0 ≤ s.remainingTimes wp) :
    (pauseTimer wp now s).remainingTimes wp ≤ s.remainingTimes wp
      ∧ 0 ≤ (pauseTimer wp now s).remainingTimes wp := by
  simp only [pauseTimer]
  split
  · rename_i t hlast
    rw [clearTimer_lastActivityTimestamps] at hlast
    split
    · simp only [clearTimer_remainingTimes]
      exact ⟨le_refl _, hr⟩
    · have hle : t ≤ now := h t hlast
      simp only [clearTimer_remainingTimes, upd_same]
      constructor
      · exact max_le (by omega) hr
      · exact le_max_right _ _
  · simp only [clearTimer_remainingTimes]
    exact ⟨le_refl _, hr⟩

theorem startOrResumeTimer_remainingTimes (wp : String) (now : Int) (s : ExtState) :
    (startOrResumeTimer wp now s).remainingTimes = s.remainingTimes := by
  simp [startOrResumeTimer]

theorem startOrResumeTimer_activityTimers_self (wp : String) (now : Int) (s : ExtState) :
    (startOrResumeTimer wp now s).activityTimers wp
      = some ⟨s.nextHandle, s.remainingTimes wp, now⟩ := by
  simp [startOrResumeTimer]

theorem startOrResumeTimer_last_self (wp : String) (now : Int) (s : ExtState) :
    (startOrResumeTimer wp now s).lastActivityTimestamps wp = some now := by
  simp [startOrResumeTimer]

theorem handleActivity_remaining_formula (wp : String) (now t : Int) (s : ExtState)
    (hlast : s.lastActivityTimestamps wp = some t) (ht : t ≠ 0) :
    (handleActivity wp now s).remainingTimes wp
      = max (s.remainingTimes wp - (now - t)) 0 := by
  simp only [handleActivity, startOrResumeTimer_remainingTimes]
  exact pauseTimer_remaining_of_last wp now t s hlast ht

theorem handleActivity_timer (wp : String) (now : Int) (s : ExtState) :
    (handleActivity wp now s).activityTimers wp
      = some ⟨s.nextHandle, (handleActivity wp now s).remainingTimes wp, now⟩ := by
  simp only [handleActivity, startOrResumeTimer_activityTimers_self,
    startOrResumeTimer_remainingTimes, pauseTimer_nextHandle]

theorem handleActivity_last (wp : String) (now : Int) (s : ExtState) :
    (handleActivity wp now s).lastActivityTimestamps wp = some now := by
  simp only [handleActivity, startOrResumeTimer_last_self]

theorem handleActivity_remaining_le (wp : String) (now : Int) (s : ExtState)
    (h : ∀ t, s.lastActivityTimestamps wp = some t → t ≤ now)
    (hr : 0 ≤ s.remainingTimes wp) :
    (handleActivity wp now s).remainingTimes wp ≤ s.remainingTimes wp
      ∧ 0 ≤ (handleActivity wp now s).remainingTimes wp := by
  simp only [handleActivity, startOrResumeTimer_remainingTimes]
  exact pauseTimer_remaining_le wp now s h hr

theorem runPulses_nil (wp : String) (s : ExtState) : runPulses wp [] s = s := rfl

theorem runPulses_cons (wp : String) (t : Int) (ts : List Int) (s : ExtState) :
    runPulses wp (t :: ts) s = runPulses wp ts (handleActivity wp t s) := rfl

theorem runPulses_remaining_le (wp : String) (ts : List Int) (t0 : Int) (s : ExtState)
    (hlast : s.lastActivityTimestamps wp = some t0)
    (hr : 0 ≤ s.remainingTimes wp)
    (hch : List.Chain (· ≤ ·) t0 ts) :
    (runPulses wp ts s).remainingTimes wp ≤ s.remainingTimes wp
      ∧ 0 ≤ (runPulses wp ts s).remainingTimes wp := by
  induction ts generalizing s t0 with
  | nil => exact ⟨le_refl _, hr⟩
  | cons t ts ih =>
      rw [List.chain_cons] at hch
      obtain ⟨h01, hch'⟩ := hch
      have hstep := handleActivity_remaining_le wp t s
        (fun u hu => by rw [hlast] at hu; injection hu with hu; omega) hr
      have hnext := ih t (handleActivity wp t s) (handleActivity_last wp t s)
        hstep.2 hch'
      rw [runPulses_cons]
      exact ⟨le_trans hnext.1 hstep.1, hnext.2⟩

@[simp] theorem startOrResumeTimer_logFiles (wp : String) (now : Int) (s : ExtState) :
    (startOrResumeTimer wp now s).logFiles = s.logFiles := by
  simp [startOrResumeTimer]

@[simp] theorem startOrResumeTimer_notifications (wp : String) (now : Int) (s : ExtState) :
    (startOrResumeTimer wp now s).notifications = s.notifications := by
  simp [startOrResumeTimer]

@[simp] theorem startOrResumeTimer_consoleErrors (wp : String) (now : Int) (s : ExtState) :
    (startOrResumeTimer wp now s).consoleErrors = s.consoleErrors := by
  simp [startOrResumeTimer]

@[simp] theorem startOrResumeTimer_gitCommands (wp : String) (now : Int) (s : ExtState) :
    (startOrResumeTimer wp now s).gitCommands = s.gitCommands := by
  simp [startOrResumeTimer]

@[simp] theorem commitLogFile_logFiles (wp : String) (g : Bool) (res : CommitResult) (s : ExtState) :
    (commitLogFile wp g res s).logFiles = s.logFiles := by
  cases g <;> cases res <;> simp [commitLogFile, executeGitCommand]

@[simp] theorem commitLogFile_remainingTimes (wp : String) (g : Bool) (res : CommitResult) (s : ExtState) :
    (commitLogFile wp g res s).remainingTimes = s.remainingTimes := by
  cases g <;> cases res <;> simp [commitLogFile, executeGitCommand]

@[simp] theorem commitLogFile_activityTimers (wp : String) (g : Bool) (res : CommitResult) (s : ExtState) :
    (commitLogFile wp g res s).activityTimers = s.activityTimers := by
  cases g <;> cases res <;> simp [commitLogFile, executeGitCommand]

@[simp] theorem commitLogFile_lastActivityTimestamps (wp : String) (g : Bool) (res : CommitResult) (s : ExtState) :
    (commitLogFile wp g res s).lastActivityTimestamps = s.lastActivityTimestamps := by
  cases g <;> cases res <;> simp [commitLogFile, executeGitCommand]

@[simp] theorem commitLogFile_nextHandle (wp : String) (g : Bool) (res : CommitResult) (s : ExtState) :
    (commitLogFile wp g res s).nextHandle = s.nextHandle := by
  cases g <;> cases res <;> simp [commitLogFile, executeGitCommand]

theorem commitLogFile_notifications (wp : String) (g : Bool) (res : CommitResult) (s : ExtState) :
    (commitLogFile wp g res s).notifications = s.notifications ++ commitNotes wp g res := by
  cases g <;> cases res <;> simp [commitLogFile, executeGitCommand, commitNotes]

theorem commitLogFile_gitCommands (wp : String) (g : Bool) (res : CommitResult) (s : ExtState) :
    (commitLogFile wp g res s).gitCommands = s.gitCommands ++ commitAttemptCmds wp g res := by
  cases g <;> cases res <;> simp [commitLogFile, executeGitCommand, commitAttemptCmds]

theorem writeLogEntry_logFiles_self (wp : String) (e : LogEntry) (s : ExtState) :
    (writeLogEntry wp e s).logFiles wp = some ((s.logFiles wp).getD [] ++ [e]) := by
  rcases h : s.logFiles wp with _ | es <;> simp [writeLogEntry, h]

theorem writeLogEntry_logFiles_ne (wp q : String) (e : LogEntry) (s : ExtState) (hq : q ≠ wp) :
    (writeLogEntry wp e s).logFiles q = s.logFiles q := by
  rcases h : s.logFiles wp with _ | es <;> simp [writeLogEntry, h, upd, hq]

@[simp] theorem writeLogEntry_remainingTimes (wp : String) (e : LogEntry) (s : ExtState) :
    (writeLogEntry wp e s).remainingTimes = s.remainingTimes := by
  rcases h : s.logFiles wp with _ | es <;> simp [writeLogEntry, h]

@[simp] theorem writeLogEntry_activityTimers (wp : String) (e : LogEntry) (s : ExtState) :
    (writeLogEntry wp e s).activityTimers = s.activityTimers := by
  rcases h : s.logFiles wp with _ | es <;> simp [writeLogEntry, h]

@[simp] theorem writeLogEntry_nextHandle (wp : String) (e : LogEntry) (s : ExtState) :
    (writeLogEntry wp e s).nextHandle = s.nextHandle := by
  rcases h : s.logFiles wp with _ | es <;> simp [writeLogEntry, h]

@[simp] theorem writeLogEntry_gitCommands (wp : String) (e : LogEntry) (s : ExtState) :
    (writeLogEntry wp e s).gitCommands = s.gitCommands := by
  rcases h : s.logFiles wp with _ | es <;> simp [writeLogEntry, h]

theorem writeLogEntry_notifications (wp : String) (e : LogEntry) (s : ExtState) :
    (writeLogEntry wp e s).notifications
      = s.notifications
        ++ (if (s.logFiles wp).isSome then []
            else [⟨Severity.info, "Your log file has been created"⟩]) := by
  rcases h : s.logFiles wp with _ | es <;> simp [writeLogEntry, h]

theorem fireTimer_logFiles_self (wp : String) (d now : Int) (g : Bool)
    (res : CommitResult) (s : ExtState) :
    (fireTimer wp d now g res s).logFiles wp
      = some ((s.logFiles wp).getD [] ++ [⟨d, now⟩]) := by
  simp only [fireTimer, startOrResumeTimer_logFiles, commitLogFile_logFiles]
  exact writeLogEntry_logFiles_self wp ⟨d, now⟩ s

theorem fireTimer_remainingTimes_self (wp : String) (d now : Int) (g : Bool)
    (res : CommitResult) (s : ExtState) :
    (fireTimer wp d now g res s).remainingTimes wp = d := by
  simp only [fireTimer, startOrResumeTimer_remainingTimes]
  simp

theorem fireTimer_activityTimers_self (wp : String) (d now : Int) (g : Bool)
    (res : CommitResult) (s : ExtState) :
    (fireTimer wp d now g res s).activityTimers wp = some ⟨s.nextHandle, d, now⟩ := by
  simp only [fireTimer, startOrResumeTimer_activityTimers_self]
  simp

theorem fireTimer_gitCommands (wp : String) (d now : Int) (g : Bool)
    (res : CommitResult) (s : ExtState) :
    (fireTimer wp d now g res s).gitCommands
      = s.gitCommands ++ commitAttemptCmds wp g res := by
  simp only [fireTimer, startOrResumeTimer_gitCommands]
  simp [commitLogFile_gitCommands]

theorem fireTimer_notifications (wp : String) (d now : Int) (g : Bool)
    (res : CommitResult) (s : ExtState) :
    (fireTimer wp d now g res s).notifications
      = s.notifications
        ++ (if (s.logFiles wp).isSome then []
            else [⟨Severity.info, "Your log file has been created"⟩])
        ++ commitNotes wp g res := by
  simp only [fireTimer, startOrResumeTimer_notifications]
  simp [commitLogFile_notifications, writeLogEntry_notifications]

theorem pauseTimer_remainingTimes_ne (wp q : String) (now : Int) (s : ExtState)
    (h : q ≠ wp) :
    (pauseTimer wp now s).remainingTimes q = s.remainingTimes q := by
  simp only [pauseTimer]
  split
  · split
    · simp
    · simp [upd, h]
  · simp

theorem pauseTimer_activityTimers_ne (wp q : String) (now : Int) (s : ExtState)
    (h : q ≠ wp) :
    (pauseTimer wp now s).activityTimers q = s.activityTimers q := by
  simp only [pauseTimer]
  split
  · split <;> simp [clearTimer_activityTimers_ne wp q s h]
  · simp [clearTimer_activityTimers_ne wp q s h]

@[simp] theorem pauseTimer_logFiles (wp : String) (now : Int) (s : ExtState) :
    (pauseTimer wp now s).logFiles = s.logFiles := by
  simp only [pauseTimer]
  split
  · split <;> simp
  · simp

theorem startOrResumeTimer_activityTimers_ne (wp q : String) (now : Int)
    (s : ExtState) (h : q ≠ wp) :
    (startOrResumeTimer wp now s).activityTimers q = s.activityTimers q := by
  simp only [startOrResumeTimer]
  simp [upd, h, clearTimer_activityTimers_ne wp q s h]

theorem startOrResumeTimer_last_ne (wp q : String) (now : Int) (s : ExtState)
    (h : q ≠ wp) :
    (startOrResumeTimer wp now s).lastActivityTimestamps q
      = s.lastActivityTimestamps q := by
  simp only [startOrResumeTimer]
  simp [upd, h]

theorem pauseTimer_last_ne (wp q : String) (now : Int) (s : ExtState) :
    (pauseTimer wp now s).lastActivityTimestamps q = s.lastActivityTimestamps q := by
  rw [pauseTimer_lastActivityTimestamps]

theorem handleActivity_frame (wp q : String) (now : Int) (s : ExtState)
    (h : q ≠ wp) :
    (handleActivity wp now s).activityTimers q = s.activityTimers q
    ∧ (handleActivity wp now s).remainingTimes q = s.remainingTimes q
    ∧ (handleActivity wp now s).lastActivityTimestamps q = s.lastActivityTimestamps q
    ∧ (handleActivity wp now s).logFiles q = s.logFiles q := by
  unfold handleActivity
  refine ⟨?_, ?_, ?_, ?_⟩
  · rw [startOrResumeTimer_activityTimers_ne wp q now _ h,
      pauseTimer_activityTimers_ne wp q now s h]
  · rw [startOrResumeTimer_remainingTimes, pauseTimer_remainingTimes_ne wp q now s h]
  · rw [startOrResumeTimer_last_ne wp q now _ h, pauseTimer_lastActivityTimestamps]
  · rw [startOrResumeTimer_logFiles, pauseTimer_logFiles]

theorem deactivateFolder_activityTimers (env : Env) (s : ExtState) (q : String) :
    (deactivateFolder env s q).activityTimers = s.activityTimers := by
  unfold deactivateFolder
  split
  · split
    · rfl
    · split <;> rfl
  · rfl

theorem deactivateFolder_remainingTimes (env : Env) (s : ExtState) (q : String) :
    (deactivateFolder env s q).remainingTimes = s.remainingTimes := by
  unfold deactivateFolder
  split
  · split
    · rfl
    · split <;> rfl
  · rfl

theorem deactivateFolder_lastActivityTimestamps (env : Env) (s : ExtState) (q : String) :
    (deactivateFolder env s q).lastActivityTimestamps = s.lastActivityTimestamps := by
  unfold deactivateFolder
  split
  · split
    · rfl
    · split <;> rfl
  · rfl

theorem deactivateFolder_nextHandle (env : Env) (s : ExtState) (q : String) :
    (deactivateFolder env s q).nextHandle = s.nextHandle := by
  unfold deactivateFolder
  split
  · split
    · rfl
    · split <;> rfl
  · rfl

theorem deactivateFolder_logFiles_ne (env : Env) (s : ExtState) (q wp : String)
    (h : wp ≠ q) :
    (deactivateFolder env s q).logFiles wp = s.logFiles wp := by
  unfold deactivateFolder
  split
  · split
    · rfl
    · split
      · rfl
      · simp [upd, h]
  · rfl

theorem deactivateFolder_notifications_mono (env : Env) (s : ExtState) (q : String)
    (n : Notification) (hn : n ∈ s.notifications) :
    n ∈ (deactivateFolder env s q).notifications := by
  unfold deactivateFolder
  split
  · split
    · exact List.mem_append_left _ hn
    · split <;> exact hn
  · exact hn

theorem deactivateFolder_consoleErrors_mono (env : Env) (s : ExtState) (q : String)
    (m : String) (hm : m ∈ s.consoleErrors) :
    m ∈ (deactivateFolder env s q).consoleErrors := by
  unfold deactivateFolder
  split
  · split
    · exact hm
    · split <;> exact List.mem_append_left _ hm
  · exact hm

theorem deactivateFolder_eq_warn (env : Env) (s : ExtState) (q : String)
    (hlog : (s.logFiles q).isSome = true) (hg : env.gitInitialized q = true) :
    deactivateFolder env s q
      = { s with notifications := s.notifications
          ++ [⟨Severity.warn, "Log file not deleted because it has not been committed."⟩] } := by
  unfold deactivateFolder
  simp [hlog, hg]

theorem deactivateFolder_eq_unlink_failed (env : Env) (s : ExtState) (q : String)
    (hlog : (s.logFiles q).isSome = true) (hg : env.gitInitialized q = false)
    (hu : env.unlinkFails q = true) :
    deactivateFolder env s q
      = { s with consoleErrors := s.consoleErrors ++ ["Error deleting log file"] } := by
  unfold deactivateFolder
  simp [hlog, hg, hu]

theorem deactivateFolder_eq_delete (env : Env) (s : ExtState) (q : String)
    (hlog : (s.logFiles q).isSome = true) (hg : env.gitInitialized q = false)
    (hu : env.unlinkFails q = false) :
    deactivateFolder env s q
      = { s with
          logFiles := upd s.logFiles q none,
          consoleErrors := s.consoleErrors ++ ["Log file deleted successfully."] } := by
  unfold deactivateFolder
  simp [hlog, hg, hu]

theorem deactivate_foldl_logFiles_notmem (env : Env) (l : List String)
    (s : ExtState) (wp : String) (h : wp ∉ l) :
    (l.foldl (deactivateFolder env) s).logFiles wp = s.logFiles wp := by
  induction l generalizing s with
  | nil => rfl
  | cons q l ih =>
      rw [List.foldl_cons]
      have hne : wp ≠ q := fun he => h (he ▸ List.mem_cons_self q l)
      rw [ih _ (fun hm => h (List.mem_cons_of_mem q hm)),
        deactivateFolder_logFiles_ne env s q wp hne]

theorem deactivate_foldl_notifications_mono (env : Env) (l : List String)
    (s : ExtState) (n : Notification) (hn : n ∈ s.notifications) :
    n ∈ (l.foldl (deactivateFolder env) s).notifications := by
  induction l generalizing s with
  | nil => exact hn
  | cons q l ih =>
      rw [List.foldl_cons]
      exact ih _ (deactivateFolder_notifications_mono env s q n hn)

theorem deactivate_foldl_consoleErrors_mono (env : Env) (l : List String)
    (s : ExtState) (m : String) (hm : m ∈ s.consoleErrors) :
    m ∈ (l.foldl (deactivateFolder env) s).consoleErrors := by
  induction l generalizing s with
  | nil => exact hm
  | cons q l ih =>
      rw [List.foldl_cons]
      exact ih _ (deactivateFolder_consoleErrors_mono env s q m hm)

theorem deactivate_activityTimers (env : Env) (s : ExtState) :
    (deactivate env s).activityTimers = s.activityTimers := by
  unfold deactivate
  induction env.folders generalizing s with
  | nil => rfl
  | cons q l ih =>
      rw [List.foldl_cons, ih, deactivateFolder_activityTimers]

theorem deactivate_remainingTimes (env : Env) (s : ExtState) :
    (deactivate env s).remainingTimes = s.remainingTimes := by
  unfold deactivate
  induction env.folders generalizing s with
  | nil => rfl
  | cons q l ih =>
      rw [List.foldl_cons, ih, deactivateFolder_remainingTimes]

theorem deactivate_nextHandle (env : Env) (s : ExtState) :
    (deactivate env s).nextHandle = s.nextHandle := by
  unfold deactivate
  induction env.folders generalizing s with
  | nil => rfl
  | cons q l ih =>
      rw [List.foldl_cons, ih, deactivateFolder_nextHandle]

@[simp] theorem startOrResumeTimer_nextHandle (wp : String) (now : Int) (s : ExtState) :
    (startOrResumeTimer wp now s).nextHandle = s.nextHandle + 1 := by
  simp [startOrResumeTimer]

theorem handleActivityTracking_self (cfg : Int) (wp : String) (now : Int) (s : ExtState) :
    (handleActivityTracking cfg wp now s).remainingTimes wp = cfg * 60 * 1000
    ∧ (handleActivityTracking cfg wp now s).activityTimers wp
        = some ⟨s.nextHandle, cfg * 60 * 1000, now⟩
    ∧ (handleActivityTracking cfg wp now s).nextHandle = s.nextHandle + 1
    ∧ (handleActivityTracking cfg wp now s).notifications = s.notifications := by
  unfold handleActivityTracking initSession
  refine ⟨?_, ?_, ?_, ?_⟩
  · rw [startOrResumeTimer_remainingTimes]; simp
  · rw [startOrResumeTimer_activityTimers_self]; simp
  · rw [startOrResumeTimer_nextHandle]
  · rw [startOrResumeTimer_notifications]

theorem handleActivityTracking_frame (cfg : Int) (q wp : String) (now : Int)
    (s : ExtState) (h : wp ≠ q) :
    (handleActivityTracking cfg q now s).remainingTimes wp = s.remainingTimes wp
    ∧ (handleActivityTracking cfg q now s).activityTimers wp = s.activityTimers wp := by
  unfold handleActivityTracking initSession
  constructor
  · rw [startOrResumeTimer_remainingTimes]; simp [upd, h]
  · rw [startOrResumeTimer_activityTimers_ne q wp now _ h]

theorem activate_foldl_frame (cfg : Int) (now : Int) (l : List String)
    (s : ExtState) (wp : String) (h : wp ∉ l) :
    (l.foldl (fun st q => handleActivityTracking cfg q now st) s).remainingTimes wp
        = s.remainingTimes wp
    ∧ (l.foldl (fun st q => handleActivityTracking cfg q now st) s).activityTimers wp
        = s.activityTimers wp := by
  induction l generalizing s with
  | nil => exact ⟨rfl, rfl⟩
  | cons q l ih =>
      have hne : wp ≠ q := fun he => h (he ▸ List.mem_cons_self q l)
      have hrec := ih (handleActivityTracking cfg q now s)
        (fun hm => h (List.mem_cons_of_mem q hm))
      have hstep := handleActivityTracking_frame cfg q wp now s hne
      rw [List.foldl_cons]
      exact ⟨hrec.1.trans hstep.1, hrec.2.trans hstep.2⟩

theorem activate_foldl_session (cfg : Int) (now : Int) (l : List String)
    (s : ExtState) (wp : String) (hmem : wp ∈ l) :
    (l.foldl (fun st q => handleActivityTracking cfg q now st) s).remainingTimes wp
        = cfg * 60 * 1000
    ∧ ∃ h : TimerHandle,
        (l.foldl (fun st q => handleActivityTracking cfg q now st) s).activityTimers wp
            = some h
        ∧ h.delay = cfg * 60 * 1000 ∧ h.setAt = now ∧ s.nextHandle ≤ h.id := by
  induction l generalizing s with
  | nil => cases hmem
  | cons q l ih =>
      rw [List.foldl_cons]
      by_cases hq : wp ∈ l
      · obtain ⟨h1, h2, hh⟩ := ih (handleActivityTracking cfg q now s) hq
        refine ⟨h1, h2, hh.1, hh.2.1, ?_⟩
        have := (handleActivityTracking_self cfg q now s).2.2.1
        omega
      · have hwq : wp = q := by
          rcases List.mem_cons.mp hmem with h | h
          · exact h
          · exact absurd h hq
        subst hwq
        have hframe := activate_foldl_frame cfg now l (handleActivityTracking cfg wp now s) wp hq
        have hself := handleActivityTracking_self cfg wp now s
        exact ⟨hframe.1.trans hself.1,
          ⟨s.nextHandle, cfg * 60 * 1000, now⟩,
          hframe.2.trans hself.2.1, rfl, rfl, le_refl _⟩

/-- Claim C1: in a session whose countdown was last resumed at `t0`, an activity
pulse at instant `now` subtracts the elapsed `now - t0` from `remainingMs`
clamped at 0, reschedules the wake-up with delay exactly the reduced
`remainingMs`, and over any further chronologically ordered pulse sequence
`remainingMs` stays monotonically non-increasing — it is never reset to
`timerDurationMs` (never increased at all) until an actual fire event
occurs. -/
theorem C1_pulse_banks_elapsed_time (wp : String) (s : ExtState) (now t0 : Int)
    (ts : List Int)
    (hlast : s.lastActivityTimestamps wp = some t0) (ht0 : t0 ≠ 0)
    (hnow : t0 ≤ now) (hr : 0 ≤ s.remainingTimes wp)
    (hch : List.Chain (· ≤ ·) now ts) :
    (handleActivity wp now s).remainingTimes wp
        = max (s.remainingTimes wp - (now - t0)) 0
    ∧ (handleActivity wp now s).activityTimers wp
        = some ⟨s.nextHandle, (handleActivity wp now s).remainingTimes wp, now⟩
    ∧ (handleActivity wp now s).remainingTimes wp ≤ s.remainingTimes wp
    ∧ (runPulses wp ts (handleActivity wp now s)).remainingTimes wp
        ≤ s.remainingTimes wp := by
  have hf := handleActivity_remaining_formula wp now t0 s hlast ht0
  have hle := handleActivity_remaining_le wp now s
    (fun u hu => by rw [hlast] at hu; injection hu with hu; omega) hr
  have hrest := runPulses_remaining_le wp ts now (handleActivity wp now s)
    (handleActivity_last wp now s) hle.2 hch
  exact ⟨hf, handleActivity_timer wp now s, hle.1, le_trans hrest.1 hle.1⟩

/-- Witness for claim C1: a session resumed at instant 5 with 10 ms left, a pulse
at 7, then further pulses at 8 and 9. -/
theorem C1_pulse_banks_elapsed_time_witness :
    (handleActivity wsA 7 c1Base).remainingTimes wsA
        = max (c1Base.remainingTimes wsA - (7 - 5)) 0
    ∧ (handleActivity wsA 7 c1Base).activityTimers wsA
        = some ⟨c1Base.nextHandle, (handleActivity wsA 7 c1Base).remainingTimes wsA, 7⟩
    ∧ (handleActivity wsA 7 c1Base).remainingTimes wsA ≤ c1Base.remainingTimes wsA
    ∧ (runPulses wsA [8, 9] (handleActivity wsA 7 c1Base)).remainingTimes wsA
        ≤ c1Base.remainingTimes wsA :=
  C1_pulse_banks_elapsed_time wsA c1Base 7 5 [8, 9]
    (by decide) (by decide) (by decide) (by decide)
    (List.Chain.cons (by decide) (List.Chain.cons (by decide) List.Chain.nil))

/-- Claim C2: every timer-fire event writes exactly one log line — carrying the
session's duration value and the fire-instant timestamp (rendered in
ISO-8601 by `toISOString` in the code) — to the workspace's log file,
creating the file with that single line when it does not exist and
appending the line otherwise. -/
theorem C2_fire_appends_exactly_one_line (wp : String) (d now : Int) (g : Bool)
    (res : CommitResult) (s : ExtState) :
    (fireTimer wp d now g res s).logFiles wp
      = some ((s.logFiles wp).getD [] ++ [⟨d, now⟩]) :=
  fireTimer_logFiles_self wp d now g res s

/-- Evidence for claim C3: the disable command does NOT cancel the pending wake-up.
With one repository-less workspace and a session 10 ms from firing, after
`scribe.disable` runs the wake-up that was pending before the command is
still pending, unchanged, and when it elapses it still fires: the log line
is written. The claim (and the spec's teardown transition) say every
pending wake-up is cancelled and no further fire event ever occurs; the
code's `deactivate` only applies the log-file policy and never touches
`activityTimers`. -/
theorem C3_disable_does_not_cancel_wakeup :
    (disableCommand c3Env c3State).activityTimers wsA = c3State.activityTimers wsA
    ∧ c3State.activityTimers wsA = some ⟨0, 10, 100⟩
    ∧ (fireTimer wsA 10 110 false CommitResult.success
        (disableCommand c3Env c3State)).logFiles wsA = some [⟨10, 110⟩] := by
  decide

/-- Evidence for claim C4: the pulse listeners are registered as unfiltered
GLOBAL subscriptions, once per folder, so one editor event — here a single
edit in `wsA` at instant 107 — runs every folder's `handleActivity` closure
and mutates the OTHER workspace's session as well: `wsB`'s `remainingMs`
drops from 10 to 3, its `lastResumeTimestamp` moves from 100 to 107, and
its pending wake-up is replaced by a fresh handle. The claim (and the
spec's routing/isolation invariant) say the pulse is routed only to the
matching session and every other session's timer state is left unchanged. -/
theorem C4_pulse_reaches_every_session :
    c4State.remainingTimes wsB = 10
    ∧ c4State.lastActivityTimestamps wsB = some 100
    ∧ c4State.activityTimers wsB = some ⟨1, 10, 100⟩
    ∧ (broadcastPulse [wsA, wsB] 107 c4State).remainingTimes wsB = 3
    ∧ (broadcastPulse [wsA, wsB] 107 c4State).lastActivityTimestamps wsB = some 107
    ∧ (broadcastPulse [wsA, wsB] 107 c4State).activityTimers wsB = some ⟨3, 3, 107⟩ := by
  decide

/-- Claim C7: a fire event in a workspace without an initialized repository is a
warning, not an error: the log line is still written, no git command is
issued at all, the not-initialized warning is shown, and the fire-cycle
continues — `remainingMs` is reset to the duration and the next wake-up is
scheduled. -/
theorem C7_fire_without_repo_skips_commit (wp : String) (d now : Int)
    (res : CommitResult) (s : ExtState) :
    (fireTimer wp d now false res s).logFiles wp
        = some ((s.logFiles wp).getD [] ++ [⟨d, now⟩])
    ∧ (fireTimer wp d now false res s).gitCommands = s.gitCommands
    ∧ (⟨Severity.warn, "Git is not initialized. Log file was not committed."⟩ : Notification)
        ∈ (fireTimer wp d now false res s).notifications
    ∧ (fireTimer wp d now false res s).remainingTimes wp = d
    ∧ (fireTimer wp d now false res s).activityTimers wp = some ⟨s.nextHandle, d, now⟩ := by
  refine ⟨fireTimer_logFiles_self wp d now false res s, ?_, ?_,
    fireTimer_remainingTimes_self wp d now false res s,
    fireTimer_activityTimers_self wp d now false res s⟩
  · rw [fireTimer_gitCommands]
    simp [commitAttemptCmds]
  · rw [fireTimer_notifications]
    simp [commitNotes]

/-- Counterexample to claim C9: under continuous per-tick activity the
banked time accumulates; the pulse at the 10th tick drives `remainingMs`
to exactly 0, so `remainingMs` does not stay greater than 0 indefinitely,
refuting the claim as stated. -/
theorem C9_continuous_activity_reaches_zero :
    (runPulses wsA (c9Pulses 10) c9Init).remainingTimes wsA = 0 := by
  decide

/-- Claim C9, amended: with a 10-tick budget and one pulse per tick, zero fire
events occur through the 9th tick — after each of the first nine pulses the
pending wake-up still fires at tick 10 (instant 1010) and `remainingMs`
stays positive — but each pulse banks the elapsed tick, so `remainingMs`
reaches 0 at the 10th tick of continuous activity rather than staying
positive indefinitely. -/
theorem C9_ten_tick_scenario :
    (∀ k : Nat, k ≤ 9 →
        fireInstant (runPulses wsA (c9Pulses k) c9Init) wsA = some 1010
        ∧ 0 < (runPulses wsA (c9Pulses k) c9Init).remainingTimes wsA)
    ∧ (runPulses wsA (c9Pulses 10) c9Init).remainingTimes wsA = 0 := by
  decide

/-- Witness for claim C9 (amended): after the ninth per-tick pulse the wake-up is
still scheduled for instant 1010. -/
theorem C9_ten_tick_scenario_witness :
    fireInstant (runPulses wsA (c9Pulses 9) c9Init) wsA = some 1010 :=
  (C9_ten_tick_scenario.1 9 (by decide)).1

/-- Claim C10: session creation performs no validation of the configured timer
duration: for every configured `timerDurationMinutes` — zero and negative
values included — the session is created with `remainingMs` initialized to
the configured value times 60000, a wake-up is scheduled with exactly that
delay, and no notification is reported. -/
theorem C10_no_duration_validation (cfg : Int) (wp : String) (now : Int)
    (s : ExtState) :
    (handleActivityTracking cfg wp now s).remainingTimes wp = cfg * 60 * 1000
    ∧ (handleActivityTracking cfg wp now s).activityTimers wp
        = some ⟨s.nextHandle, cfg * 60 * 1000, now⟩
    ∧ (handleActivityTracking cfg wp now s).notifications = s.notifications := by
  have h := handleActivityTracking_self cfg wp now s
  exact ⟨h.1, h.2.1, h.2.2.2⟩

/-- Claim C5: the teardown deletion policy, per open workspace whose log file
exists. With an initialized repository the log file is left untouched and a
warning is surfaced that it was not deleted. Without one the log file is
deleted best-effort: on success it is gone; when deletion fails the failure
is reported on the console, the log file merely survives, and teardown
still completes (the fold over the remaining workspaces proceeds — the
conclusions hold for the final state of the whole teardown). -/
theorem C5_teardown_log_policy (env : Env) (s : ExtState) (wp : String)
    (hmem : wp ∈ env.folders) (hnd : env.folders.Nodup)
    (hlog : (s.logFiles wp).isSome) :
    (env.gitInitialized wp = true →
        (deactivate env s).logFiles wp = s.logFiles wp
        ∧ (⟨Severity.warn, "Log file not deleted because it has not been committed."⟩ : Notification)
            ∈ (deactivate env s).notifications)
    ∧ (env.gitInitialized wp = false → env.unlinkFails wp = true →
        (deactivate env s).logFiles wp = s.logFiles wp
        ∧ "Error deleting log file" ∈ (deactivate env s).consoleErrors)
    ∧ (env.gitInitialized wp = false → env.unlinkFails wp = false →
        (deactivate env s).logFiles wp = none) := by
  obtain ⟨l1, l2, hsplit⟩ := List.append_of_mem hmem
  have hnd' : (l1 ++ wp :: l2).Nodup := hsplit ▸ hnd
  have hl2 : wp ∉ l2 := (List.nodup_cons.mp (List.nodup_append.mp hnd').2.1).1
  have hl1 : wp ∉ l1 := fun h =>
    (List.nodup_append.mp hnd').2.2 h (List.mem_cons_self wp l2)
  have hfold : deactivate env s
      = l2.foldl (deactivateFolder env)
          (deactivateFolder env (l1.foldl (deactivateFolder env) s) wp) := by
    unfold deactivate
    rw [hsplit, List.foldl_append, List.foldl_cons]
  have hs1 : (l1.foldl (deactivateFolder env) s).logFiles wp = s.logFiles wp :=
    deactivate_foldl_logFiles_notmem env l1 s wp hl1
  refine ⟨fun hg => ?_, fun hg hu => ?_, fun hg hu => ?_⟩
  · have hstep := deactivateFolder_eq_warn env (l1.foldl (deactivateFolder env) s)
      wp (by rw [hs1]; exact hlog) hg
    constructor
    · rw [hfold, hstep, deactivate_foldl_logFiles_notmem env l2 _ wp hl2]
      exact hs1
    · rw [hfold, hstep]
      apply deactivate_foldl_notifications_mono
      simp
  · have hstep := deactivateFolder_eq_unlink_failed env
      (l1.foldl (deactivateFolder env) s) wp (by rw [hs1]; exact hlog) hg hu
    constructor
    · rw [hfold, hstep, deactivate_foldl_logFiles_notmem env l2 _ wp hl2]
      exact hs1
    · rw [hfold, hstep]
      apply deactivate_foldl_consoleErrors_mono
      simp
  · have hstep := deactivateFolder_eq_delete env
      (l1.foldl (deactivateFolder env) s) wp (by rw [hs1]; exact hlog) hg hu
    rw [hfold, hstep, deactivate_foldl_logFiles_notmem env l2 _ wp hl2]
    simp

/-- Witness for claim C5: in the two-workspace scenario teardown deletes the log
file of the repository-less workspace `wsB`. -/
theorem C5_teardown_log_policy_witness :
    (deactivate c5Env c5State).logFiles wsB = none :=
  (C5_teardown_log_policy c5Env c5State wsB (by decide) (by decide)
    (by decide)).2.2 rfl rfl

/-- Claim C6: when the commit step fails after a fire event (staging or commit
command), a user-visible failure notification is reported, the log line
that triggered the commit is not rolled back, exactly the commands of this
single attempt were issued — no retry and no queue — and the timer state
machine continues: `remainingMs` is reset to the duration and the next
wake-up is scheduled. -/
theorem C6_commit_failure_is_contained (wp : String) (d now : Int)
    (res : CommitResult) (s : ExtState) (hres : res ≠ CommitResult.success) :
    (⟨Severity.err, "Failed to commit log file to Git."⟩ : Notification)
        ∈ (fireTimer wp d now true res s).notifications
    ∧ (fireTimer wp d now true res s).logFiles wp
        = some ((s.logFiles wp).getD [] ++ [⟨d, now⟩])
    ∧ (fireTimer wp d now true res s).gitCommands
        = s.gitCommands ++ commitAttemptCmds wp true res
    ∧ (commitAttemptCmds wp true res).length ≤ 2
    ∧ (fireTimer wp d now true res s).remainingTimes wp = d
    ∧ (fireTimer wp d now true res s).activityTimers wp
        = some ⟨s.nextHandle, d, now⟩ := by
  refine ⟨?_, fireTimer_logFiles_self wp d now true res s,
    fireTimer_gitCommands wp d now true res s, ?_,
    fireTimer_remainingTimes_self wp d now true res s,
    fireTimer_activityTimers_self wp d now true res s⟩
  · rw [fireTimer_notifications]
    cases res with
    | success => exact absurd rfl hres
    | stageFails => simp [commitNotes]
    | commitFails => simp [commitNotes]
  · cases res <;> simp [commitAttemptCmds]

/-- Witness for claim C6: a staging failure in `wsA` surfaces the failure
notification. -/
theorem C6_commit_failure_is_contained_witness :
    (⟨Severity.err, "Failed to commit log file to Git."⟩ : Notification)
        ∈ (fireTimer wsA 10 100 true CommitResult.stageFails ExtState.empty).notifications :=
  (C6_commit_failure_is_contained wsA 10 100 CommitResult.stageFails
    ExtState.empty (by decide)).1

/-- Evidence for claim C8: the initial activation succeeds — it registers
the three commands and creates the `wsA` session at the full 60000 ms —
but the restart command does not recreate anything. Its handler runs
`deactivate()` and then `activate(context)` again, whose very first
`registerCommand` call finds `scribe.activate` still registered (the
original registrations are never disposed on this path) and throws before
the session loop is reached: the handler aborts, `remainingMs` stays at
its mid-countdown value 59950 instead of being reset to 60000, and the old
wake-up handle is still the pending one. The claim says every session is
recreated at full `remainingMs` with all prior wake-ups cleared. -/
theorem C8_restart_throws_before_recreating_sessions :
    c8Start.thrown = none
    ∧ c8Start.state.remainingTimes wsA = 60000
    ∧ c8Mid.remainingTimes wsA = 59950
    ∧ c8Mid.activityTimers wsA = some ⟨1, 59950, 150⟩
    ∧ (restartCommand c8Env 200 c8Mid).thrown
        = some ("command already exists: " ++ activateCmdId)
    ∧ (restartCommand c8Env 200 c8Mid).state.remainingTimes wsA = 59950
    ∧ (restartCommand c8Env 200 c8Mid).state.activityTimers wsA
        = some ⟨1, 59950, 150⟩ := by
  decide

end Scribe
